import Mathlib

/-!
Shallow embedding of the validana-server core (TypeScript) and proofs about it.

Components embedded, each from the repository source:
* `ServerEventEmitter` (src/core/events.ts): the subtype-to-subscriber map,
  `subscribe`, `unsubscribe`, `emit`, `hasSubscribers`, `getSubscribersSize`,
  together with the close hooks installed by `subscribe`.
* `HttpProtocol` request checks (src/protocol/http.ts): the URL-length gate,
  the POST body-size gate, and the GET/POST body parsing chains (both the
  TypeScript source variant and the compiled variant shipped in the repository).
* `Config` default loading (src/config.ts): the registered keys with their
  default values and `loadDefaults`.
* `ServerCache.get` (serverCache source file): staleness check, refresh,
  failure handling, and a small interleaving machine for concurrent gets.
* `Metrics.sync` and `Metrics.exportPrometheus` (src/core/metrics.ts).

Connections are identified by natural numbers, callbacks by identifiers;
the behaviour of a callback (whether it raises) is a parameter. Machine
integers of the source are modelled as `Int`/`Nat`; none of the embedded
arithmetic can overflow in the source ranges considered.
-/

/-! ## Event emitter (src/core/events.ts) -/

/-- One element of a subtype list: the pair `[connection, subscriber]` pushed
by `ServerEventEmitter.subscribe` (events.ts line 62/64). `conn = none` is a
general subscription made with `message === undefined`. -/
structure SubEntry where
  conn : Option Nat
  cb : Nat
  deriving DecidableEq, Repr

/-- The `subtypeToConnection` map of `ServerEventEmitter` (events.ts line 16):
an insertion-ordered map from optional subtype to the list of entries, keys
unique, modelled as an association list. -/
abbrev SubMap := List (Option String × List SubEntry)

/-- Lookup in the subtype map, as JS `Map.get` (returns the value of the
unique matching key, or none). -/
def mapLookup (m : SubMap) (k : Option String) : Option (List SubEntry) :=
  match m with
  | [] => none
  | (k1, v1) :: rest => if k1 = k then some v1 else mapLookup rest k

/-- JS `Map.set`: replace the value of an existing key in place, or append a
new key at the end. -/
def mapSet (m : SubMap) (k : Option String) (v : List SubEntry) : SubMap :=
  match m with
  | [] => [(k, v)]
  | (k1, v1) :: rest => if k1 = k then (k, v) :: rest else (k1, v1) :: mapSet rest k v

/-- JS `Map.delete`: remove the unique entry of the key, if present. -/
def mapDelete (m : SubMap) (k : Option String) : SubMap :=
  match m with
  | [] => []
  | (k1, v1) :: rest => if k1 = k then rest else (k1, v1) :: mapDelete rest k

/-- State of one `ServerEventEmitter` instance together with the close hooks
that `subscribe` has installed on connections (events.ts line 68): a hook
`(c, s)` means that when connection `c` closes, `unsubscribe` runs for the
message of `c` and subtype `s`. -/
structure EmitterState where
  subs : SubMap
  hooks : List (Nat × Option String)
  deriving DecidableEq, Repr

/-- The freshly constructed emitter: empty map, no hooks. -/
def emptyEmitter : EmitterState := ⟨[], []⟩

/-- `ServerEventEmitter.unsubscribe` (events.ts lines 39-50): filter out every
entry of the connection from the subtype list; delete the key when the list
empties, otherwise store the filtered list. `conn = none` removes the general
subscribers, as a call with `message === undefined` does. -/
def unsubscribe (st : EmitterState) (conn : Option Nat) (subtype : Option String) :
    EmitterState :=
  match mapLookup st.subs subtype with
  | none => st
  | some l =>
      if l.filter (fun e => e.conn ≠ conn) = [] then ⟨mapDelete st.subs subtype, st.hooks⟩
      else ⟨mapSet st.subs subtype (l.filter (fun e => e.conn ≠ conn)), st.hooks⟩

/-- `ServerEventEmitter.subscribe` (events.ts lines 58-69): append the pair to
the subtype list (creating the key if absent) and, when the message carries a
connection, install the close hook that will run `unsubscribe`. -/
def subscribe (st : EmitterState) (conn : Option Nat) (cb : Nat) (subtype : Option String) :
    EmitterState :=
  ⟨match mapLookup st.subs subtype with
    | none => mapSet st.subs subtype [⟨conn, cb⟩]
    | some l => mapSet st.subs subtype (l ++ [⟨conn, cb⟩]),
   match conn with
    | none => st.hooks
    | some c => st.hooks ++ [(c, subtype)]⟩

/-- Close of a connection: node fires every `close` listener in registration
order, so every hook `(c, s)` installed for this connection runs
`unsubscribe` for its subtype (events.ts line 68). -/
def closeConn (st : EmitterState) (c : Nat) : EmitterState :=
  (st.hooks.filter (fun h => h.1 = c)).foldl (fun s h => unsubscribe s (some c) h.2) st

/-- The list `ServerEventEmitter.emit` iterates over for a subtype
(events.ts lines 72-79): the subtype list, or nothing when the key is absent. -/
def emitCallbacks (st : EmitterState) (subtype : Option String) : List SubEntry :=
  (mapLookup st.subs subtype).getD []

/-- The callbacks actually invoked by the for-loop of `emit` (events.ts lines
75-77), given which callbacks raise. The loop body
`connection[1].call(connection[0], data)` has no try/catch, so an exception
propagates out of `emit`: the raising callback runs, the rest of the list
does not. -/
def emitRun (throws : Nat → Bool) (l : List SubEntry) : List Nat :=
  match l with
  | [] => []
  | e :: rest => if throws e.cb then [e.cb] else e.cb :: emitRun throws rest

/-- Callbacks invoked by `emit` on a subtype of an emitter state. -/
def emitInvoked (throws : Nat → Bool) (st : EmitterState) (subtype : Option String) :
    List Nat :=
  emitRun throws (emitCallbacks st subtype)

/-- `ServerEventEmitter.hasSubscribers` (events.ts lines 93-99): with no
subtype it checks `subtypeToConnection.size > 0`; with a subtype it checks
that the key is present. -/
def hasSubscribers (st : EmitterState) (subtype : Option String) : Bool :=
  match subtype with
  | none => st.subs.length > 0
  | some s => mapLookup st.subs (some s) ≠ none

/-- `ServerEventEmitter.getSubscribersSize` (events.ts lines 102-112). -/
def getSubscribersSize (st : EmitterState) (subtype : Option String) : Nat :=
  match subtype with
  | none => st.subs.foldl (fun t p => t + p.2.length) 0
  | some s => ((mapLookup st.subs (some s)).map List.length).getD 0

/-- Well-formedness of an emitter state: the map keys are unique (as in a JS
`Map`) and every entry that carries a connection is covered by a close hook
for that connection and its subtype. Both hold for every state the program
can reach, see `wf_emptyEmitter`, `wf_subscribe`, `wf_unsubscribe`. -/
def EmitterWF (st : EmitterState) : Prop :=
  (st.subs.map Prod.fst).Nodup ∧
    ∀ p ∈ st.subs, ∀ e ∈ p.2, ∀ c ∈ e.conn, (c, p.1) ∈ st.hooks

instance (st : EmitterState) : Decidable (EmitterWF st) := by
  unfold EmitterWF; infer_instance

/-! ### Lemmas about the subtype map -/

theorem mapLookup_mapSet_self (m : SubMap) (k : Option String) (v : List SubEntry) :
    mapLookup (mapSet m k v) k = some v := by
  induction m with
  | nil => simp [mapSet, mapLookup]
  | cons p rest ih =>
      by_cases h : p.1 = k
      · simp [mapSet, mapLookup, h]
      · simp [mapSet, mapLookup, h, ih]

theorem mapLookup_mapSet_ne (m : SubMap) (k : Option String) (v : List SubEntry)
    (k2 : Option String) (h : k2 ≠ k) :
    mapLookup (mapSet m k v) k2 = mapLookup m k2 := by
  have hks : ¬ (k = k2) := fun h2 => h h2.symm
  induction m with
  | nil => simp [mapSet, mapLookup, hks]
  | cons p rest ih =>
      by_cases h1 : p.1 = k
      · simp only [mapSet, h1, if_true, mapLookup, hks, if_false]
      · simp only [mapSet, h1, if_false, mapLookup]
        by_cases h2 : p.1 = k2 <;> simp [h2, ih]

theorem mem_keys_mapSet (m : SubMap) (k k2 : Option String) (v : List SubEntry)
    (h : k2 ∈ (mapSet m k v).map Prod.fst) : k2 ∈ m.map Prod.fst ∨ k2 = k := by
  induction m with
  | nil =>
      simp only [mapSet, List.map_cons, List.map_nil, List.mem_singleton] at h
      right; exact h
  | cons p rest ih =>
      by_cases h1 : p.1 = k
      · simp only [mapSet, h1, if_true, List.map_cons, List.mem_cons] at h
        rcases h with h | h
        · right; exact h
        · left; simp [h]
      · simp only [mapSet, h1, if_false, List.map_cons, List.mem_cons] at h
        rcases h with h | h
        · left; simp [h]
        · rcases ih h with h2 | h2
          · left; simp [h2]
          · right; exact h2

theorem nodup_keys_mapSet (m : SubMap) (k : Option String) (v : List SubEntry)
    (h : (m.map Prod.fst).Nodup) : ((mapSet m k v).map Prod.fst).Nodup := by
  induction m with
  | nil => simp [mapSet]
  | cons p rest ih =>
      simp only [List.map_cons, List.nodup_cons] at h
      by_cases h1 : p.1 = k
      · simp only [mapSet, h1, if_true, List.map_cons, List.nodup_cons]
        exact ⟨h1 ▸ h.1, h.2⟩
      · simp only [mapSet, h1, if_false, List.map_cons, List.nodup_cons]
        refine ⟨fun hmem => ?_, ih h.2⟩
        rcases mem_keys_mapSet rest k p.1 v hmem with h2 | h2
        · exact h.1 h2
        · exact h1 h2

theorem mapLookup_eq_none_of_not_mem (m : SubMap) (k : Option String)
    (h : k ∉ m.map Prod.fst) : mapLookup m k = none := by
  induction m with
  | nil => rfl
  | cons p rest ih =>
      simp only [List.map_cons, List.mem_cons] at h
      push_neg at h
      have h1 : ¬ (p.1 = k) := fun h2 => h.1 h2.symm
      simp [mapLookup, h1, ih h.2]

theorem mapLookup_mapDelete_self (m : SubMap) (k : Option String)
    (h : (m.map Prod.fst).Nodup) : mapLookup (mapDelete m k) k = none := by
  induction m with
  | nil => rfl
  | cons p rest ih =>
      simp only [List.map_cons, List.nodup_cons] at h
      by_cases h1 : p.1 = k
      · simp only [mapDelete, h1, if_true]
        exact mapLookup_eq_none_of_not_mem rest k (h1 ▸ h.1)
      · simp [mapDelete, h1, mapLookup, ih h.2]

theorem mapLookup_mapDelete_ne (m : SubMap) (k k2 : Option String) (h : k2 ≠ k) :
    mapLookup (mapDelete m k) k2 = mapLookup m k2 := by
  have hks : ¬ (k = k2) := fun h2 => h h2.symm
  induction m with
  | nil => simp [mapDelete]
  | cons p rest ih =>
      by_cases h1 : p.1 = k
      · simp only [mapDelete, h1, if_true, mapLookup]
        simp [h1, hks]
      · simp only [mapDelete, h1, if_false, mapLookup]
        by_cases h2 : p.1 = k2 <;> simp [h2, ih]

theorem mem_mapDelete (m : SubMap) (k : Option String) (p : Option String × List SubEntry)
    (h : p ∈ mapDelete m k) : p ∈ m := by
  induction m with
  | nil => simp [mapDelete] at h
  | cons q rest ih =>
      by_cases h1 : q.1 = k
      · simp only [mapDelete, h1, if_true] at h
        exact List.mem_cons_of_mem q h
      · simp only [mapDelete, h1, if_false, List.mem_cons] at h
        rcases h with h | h
        · simp [h]
        · exact List.mem_cons_of_mem q (ih h)

theorem nodup_keys_mapDelete (m : SubMap) (k : Option String)
    (h : (m.map Prod.fst).Nodup) : ((mapDelete m k).map Prod.fst).Nodup := by
  induction m with
  | nil => simp [mapDelete]
  | cons p rest ih =>
      simp only [List.map_cons, List.nodup_cons] at h
      by_cases h1 : p.1 = k
      · simp only [mapDelete, h1, if_true]
        exact h.2
      · simp only [mapDelete, h1, if_false, List.map_cons, List.nodup_cons]
        refine ⟨fun hmem => ?_, ih h.2⟩
        simp only [List.mem_map] at hmem
        rcases hmem with ⟨x, hx, he⟩
        exact h.1 (List.mem_map.mpr ⟨x, mem_mapDelete rest k x hx, he⟩)

theorem mem_of_mapLookup (m : SubMap) (k : Option String) (l : List SubEntry)
    (h : mapLookup m k = some l) : (k, l) ∈ m := by
  induction m with
  | nil => simp [mapLookup] at h
  | cons p rest ih =>
      by_cases h1 : p.1 = k
      · simp only [mapLookup, h1, if_true, Option.some.injEq] at h
        have h2 : p = (k, l) := by cases p; simp_all
        simp [h2]
      · simp only [mapLookup, h1, if_false] at h
        exact List.mem_cons_of_mem p (ih h)

theorem mem_mapSet (m : SubMap) (k : Option String) (v : List SubEntry)
    (p : Option String × List SubEntry) (h : p ∈ mapSet m k v) :
    p = (k, v) ∨ p ∈ m := by
  induction m with
  | nil =>
      simp only [mapSet, List.mem_singleton] at h
      left; exact h
  | cons q rest ih =>
      by_cases h1 : q.1 = k
      · simp only [mapSet, h1, if_true, List.mem_cons] at h
        rcases h with h | h
        · left; exact h
        · right; exact List.mem_cons_of_mem q h
      · simp only [mapSet, h1, if_false, List.mem_cons] at h
        rcases h with h | h
        · right; simp [h]
        · rcases ih h with h2 | h2
          · left; exact h2
          · right; exact List.mem_cons_of_mem q h2

/-! ### Invariant preservation for the emitter -/

theorem unsubscribe_hooks (st : EmitterState) (co : Option Nat) (s : Option String) :
    (unsubscribe st co s).hooks = st.hooks := by
  unfold unsubscribe
  split
  · rfl
  · split <;> rfl

theorem nodup_unsubscribe (st : EmitterState) (co : Option Nat) (s : Option String)
    (h : (st.subs.map Prod.fst).Nodup) :
    (((unsubscribe st co s).subs).map Prod.fst).Nodup := by
  unfold unsubscribe
  cases mapLookup st.subs s with
  | none => exact h
  | some l =>
      by_cases h2 : l.filter (fun e => e.conn ≠ co) = []
      · simp only [h2, if_true]
        exact nodup_keys_mapDelete _ _ h
      · simp only [h2, if_false]
        exact nodup_keys_mapSet _ _ _ h

theorem emitCallbacks_unsubscribe_self (st : EmitterState) (co : Option Nat)
    (s : Option String) (hnd : (st.subs.map Prod.fst).Nodup) (e : SubEntry)
    (he : e ∈ emitCallbacks (unsubscribe st co s) s) : e.conn ≠ co := by
  unfold unsubscribe at he
  cases hl : mapLookup st.subs s with
  | none =>
      rw [hl] at he
      simp only [emitCallbacks, hl, Option.getD_none] at he
      exact absurd he (List.not_mem_nil e)
  | some l =>
      rw [hl] at he
      by_cases h2 : l.filter (fun e => e.conn ≠ co) = []
      · simp only [h2, if_true, emitCallbacks] at he
        rw [mapLookup_mapDelete_self st.subs s hnd] at he
        exact absurd he (List.not_mem_nil e)
      · simp only [h2, if_false, emitCallbacks] at he
        rw [mapLookup_mapSet_self] at he
        simp only [Option.getD_some, List.mem_filter, decide_eq_true_eq] at he
        exact he.2

theorem emitCallbacks_unsubscribe_sub (st : EmitterState) (co : Option Nat)
    (s2 s : Option String) (hnd : (st.subs.map Prod.fst).Nodup) (e : SubEntry)
    (he : e ∈ emitCallbacks (unsubscribe st co s2) s) : e ∈ emitCallbacks st s := by
  by_cases hs : s = s2
  · subst hs
    unfold unsubscribe at he
    cases hl : mapLookup st.subs s with
    | none => rw [hl] at he; exact he
    | some l =>
        rw [hl] at he
        by_cases h2 : l.filter (fun e => e.conn ≠ co) = []
        · simp only [h2, if_true, emitCallbacks] at he
          rw [mapLookup_mapDelete_self st.subs s hnd] at he
          exact absurd he (List.not_mem_nil e)
        · simp only [h2, if_false, emitCallbacks] at he
          rw [mapLookup_mapSet_self] at he
          simp only [Option.getD_some, List.mem_filter] at he
          simp [emitCallbacks, hl, he.1]
  · unfold unsubscribe at he
    cases hl : mapLookup st.subs s2 with
    | none => rw [hl] at he; exact he
    | some l =>
        rw [hl] at he
        by_cases h2 : l.filter (fun e => e.conn ≠ co) = []
        · simp only [h2, if_true, emitCallbacks] at he
          rw [mapLookup_mapDelete_ne st.subs s2 s hs] at he
          exact he
        · simp only [h2, if_false, emitCallbacks] at he
          rw [mapLookup_mapSet_ne st.subs s2 _ s hs] at he
          exact he

/-- Running the close hooks of a connection in order, each performing the
`unsubscribe` installed at events.ts line 68. -/
def runHooks (c : Nat) (hs : List (Option String)) (st : EmitterState) : EmitterState :=
  hs.foldl (fun st2 s => unsubscribe st2 (some c) s) st

theorem closeConn_eq_runHooks (st : EmitterState) (c : Nat) :
    closeConn st c = runHooks c ((st.hooks.filter (fun h => h.1 = c)).map Prod.snd) st := by
  unfold closeConn runHooks
  rw [List.foldl_map]

theorem nodup_runHooks (c : Nat) (hs : List (Option String)) (st : EmitterState)
    (hnd : (st.subs.map Prod.fst).Nodup) :
    (((runHooks c hs st).subs).map Prod.fst).Nodup := by
  induction hs generalizing st with
  | nil => exact hnd
  | cons s1 rest ih => exact ih _ (nodup_unsubscribe st (some c) s1 hnd)

theorem emitCallbacks_runHooks_sub (c : Nat) (hs : List (Option String))
    (st : EmitterState) (s : Option String) (hnd : (st.subs.map Prod.fst).Nodup)
    (e : SubEntry) (he : e ∈ emitCallbacks (runHooks c hs st) s) :
    e ∈ emitCallbacks st s := by
  induction hs generalizing st with
  | nil => exact he
  | cons s1 rest ih =>
      have h1 := ih (unsubscribe st (some c) s1) (nodup_unsubscribe st (some c) s1 hnd) he
      exact emitCallbacks_unsubscribe_sub st (some c) s1 s hnd e h1

theorem runHooks_clean (c : Nat) (hs : List (Option String)) :
    ∀ (st : EmitterState) (s : Option String), (st.subs.map Prod.fst).Nodup → s ∈ hs →
      ∀ e ∈ emitCallbacks (runHooks c hs st) s, e.conn ≠ some c := by
  induction hs with
  | nil =>
      intro st s _ hmem
      exact absurd hmem (List.not_mem_nil s)
  | cons s1 rest ih =>
      intro st s hnd hmem e he
      by_cases hmem2 : s ∈ rest
      · exact ih (unsubscribe st (some c) s1) s (nodup_unsubscribe st (some c) s1 hnd) hmem2 e he
      · have hs1 : s = s1 := by
          rcases List.mem_cons.mp hmem with h | h
          · exact h
          · exact absurd h hmem2
        subst hs1
        have h1 : e ∈ emitCallbacks (unsubscribe st (some c) s) s :=
          emitCallbacks_runHooks_sub c rest _ s (nodup_unsubscribe st (some c) s hnd) e he
        exact emitCallbacks_unsubscribe_self st (some c) s hnd e h1

theorem wf_emptyEmitter : EmitterWF emptyEmitter := by decide

theorem wf_unsubscribe (st : EmitterState) (co : Option Nat) (s : Option String)
    (h : EmitterWF st) : EmitterWF (unsubscribe st co s) := by
  obtain ⟨hnd, hcov⟩ := h
  refine ⟨nodup_unsubscribe st co s hnd, ?_⟩
  intro p hp e he c hc
  rw [unsubscribe_hooks]
  unfold unsubscribe at hp
  cases hl : mapLookup st.subs s with
  | none =>
      rw [hl] at hp
      exact hcov p hp e he c hc
  | some l =>
      rw [hl] at hp
      by_cases h2 : l.filter (fun e => e.conn ≠ co) = []
      · simp only [h2, if_true] at hp
        exact hcov p (mem_mapDelete _ _ _ hp) e he c hc
      · simp only [h2, if_false] at hp
        rcases mem_mapSet _ _ _ _ hp with hpe | hpm
        · have hel : e ∈ l := by
            rw [hpe] at he
            exact (List.mem_filter.mp he).1
          have hfst : p.1 = s := by rw [hpe]
          rw [hfst]
          exact hcov (s, l) (mem_of_mapLookup _ _ _ hl) e hel c hc
        · exact hcov p hpm e he c hc

theorem wf_subscribe (st : EmitterState) (conn : Option Nat) (cb : Nat) (s : Option String)
    (h : EmitterWF st) : EmitterWF (subscribe st conn cb s) := by
  obtain ⟨hnd, hcov⟩ := h
  constructor
  · cases hl : mapLookup st.subs s <;>
      cases conn <;>
        (simp only [subscribe, hl]; exact nodup_keys_mapSet _ _ _ hnd)
  · intro p hp e he c hc
    have hooksSub : ∀ x ∈ st.hooks, x ∈ (subscribe st conn cb s).hooks := by
      intro x hx
      cases conn with
      | none => exact hx
      | some c2 => exact List.mem_append_left _ hx
    have hnew : ∀ hpe : p = (s, [(⟨conn, cb⟩ : SubEntry)]) ∨
        (∃ l, mapLookup st.subs s = some l ∧ p = (s, l ++ [(⟨conn, cb⟩ : SubEntry)])),
        e = (⟨conn, cb⟩ : SubEntry) → (c, p.1) ∈ (subscribe st conn cb s).hooks := by
      intro hpe hee
      have hconn : conn = some c := by
        rw [hee] at hc
        exact Option.mem_def.mp hc
      have hfst : p.1 = s := by
        rcases hpe with hpe | ⟨l, _, hpe⟩ <;> rw [hpe]
      rw [hfst, hconn]
      subst hconn
      simp only [subscribe]
      exact List.mem_append_right _ (List.mem_singleton.mpr rfl)
    cases hl : mapLookup st.subs s with
    | none =>
        simp only [subscribe, hl] at hp
        rcases mem_mapSet _ _ _ _ hp with hpe | hpm
        · have hee : e = (⟨conn, cb⟩ : SubEntry) := by
            rw [hpe] at he
            exact List.mem_singleton.mp he
          exact hnew (Or.inl hpe) hee
        · exact hooksSub _ (hcov p hpm e he c hc)
    | some l =>
        simp only [subscribe, hl] at hp
        rcases mem_mapSet _ _ _ _ hp with hpe | hpm
        · have hel : e ∈ l ++ [(⟨conn, cb⟩ : SubEntry)] := by rw [hpe] at he; exact he
          rcases List.mem_append.mp hel with hel | hel
          · have hfst : p.1 = s := by rw [hpe]
            rw [hfst]
            exact hooksSub _ (hcov (s, l) (mem_of_mapLookup _ _ _ hl) e hel c hc)
          · exact hnew (Or.inr ⟨l, hl, hpe⟩) (List.mem_singleton.mp hel)
        · exact hooksSub _ (hcov p hpm e he c hc)

theorem emitRun_all (throws : Nat → Bool) (l : List SubEntry)
    (h : ∀ x ∈ l, throws x.cb = false) : emitRun throws l = l.map SubEntry.cb := by
  induction l with
  | nil => rfl
  | cons e rest ih =>
      have h1 := h e (List.mem_cons_self e rest)
      simp [emitRun, h1, ih (fun x hx => h x (List.mem_cons_of_mem e hx))]

theorem emitRun_break (throws : Nat → Bool) (l1 : List SubEntry) (e : SubEntry)
    (l2 : List SubEntry) (h1 : ∀ x ∈ l1, throws x.cb = false) (he : throws e.cb = true) :
    emitRun throws (l1 ++ e :: l2) = l1.map SubEntry.cb ++ [e.cb] := by
  induction l1 with
  | nil => simp [emitRun, he]
  | cons x rest ih =>
      have hx := h1 x (List.mem_cons_self x rest)
      simp [emitRun, hx, ih (fun y hy => h1 y (List.mem_cons_of_mem x hy))]

/-! ## Claim theorems about the event emitter -/

/-- C1, counterexample. The claim states that `ServerEventEmitter.emit` invokes
every callback registered for the subtype even when an earlier callback raises.
In the state where callbacks 0 and 1 were registered in this order for the
undefined subtype and callback 0 raises, the loop of `emit` (events.ts lines
75-77, which has no try/catch around `connection[1].call(...)`) only invokes
callback 0: the invoked list is not `[0, 1]`. -/
theorem emitAllCallbacks_cex :
    ¬ emitInvoked (fun c => c == 0)
        (subscribe (subscribe emptyEmitter none 0 none) none 1 none) none = [0, 1] := by
  decide

/-- C1, amended. `emit` invokes the callbacks of the subtype in registration
order: if no callback raises, all of them are invoked; but a callback that
raises prevents the subsequent callbacks of the list from being invoked; the
loop stops right after the raising callback. -/
theorem emitInvokesInOrderUntilRaise (throws : Nat → Bool) (st : EmitterState)
    (s : Option String) :
    ((∀ x ∈ emitCallbacks st s, throws x.cb = false) →
      emitInvoked throws st s = (emitCallbacks st s).map SubEntry.cb) ∧
    (∀ l1 e l2, emitCallbacks st s = l1 ++ e :: l2 →
      (∀ x ∈ l1, throws x.cb = false) → throws e.cb = true →
      emitInvoked throws st s = l1.map SubEntry.cb ++ [e.cb]) := by
  constructor
  · intro h
    exact emitRun_all throws _ h
  · intro l1 e l2 hsplit h1 he
    unfold emitInvoked
    rw [hsplit]
    exact emitRun_break throws l1 e l2 h1 he

/-- Witness for the amended C1: with callbacks 0 (raising) and 1 registered in
order, `emit` invokes exactly callback 0. -/
theorem emitInvokesInOrderUntilRaise_witness :
    emitInvoked (fun c => c == 0)
      (subscribe (subscribe emptyEmitter none 0 none) none 1 none) none = [0] := by
  have h := (emitInvokesInOrderUntilRaise (fun c => c == 0)
      (subscribe (subscribe emptyEmitter none 0 none) none 1 none) none).2
  have h2 := h [] ⟨none, 0⟩ [⟨none, 1⟩] (by decide) (by decide) (by decide)
  simpa using h2

/-- C2. After a connection closes (which fires every close hook that
`subscribe` installed for it, events.ts line 68, each running `unsubscribe`,
events.ts lines 39-50), an `emit` on any subtype iterates over no entry of
that connection: every callback previously registered through `subscribe`
with a message of that connection has been removed. Holds for every
well-formed emitter state, in particular for every reachable one
(`wf_emptyEmitter`, `wf_subscribe`, `wf_unsubscribe`). -/
theorem closedConnectionNotEmitted (st : EmitterState) (c : Nat) (s : Option String)
    (e : SubEntry) (hwf : EmitterWF st) (he : e ∈ emitCallbacks (closeConn st c) s) :
    e.conn ≠ some c := by
  intro hconn
  obtain ⟨hnd, hcov⟩ := hwf
  rw [closeConn_eq_runHooks] at he
  by_cases hmem : s ∈ (st.hooks.filter (fun h => h.1 = c)).map Prod.snd
  · exact runHooks_clean c _ st s hnd hmem e he hconn
  · have h2 : e ∈ emitCallbacks st s := emitCallbacks_runHooks_sub c _ st s hnd e he
    cases hl : mapLookup st.subs s with
    | none =>
        rw [emitCallbacks, hl] at h2
        exact absurd h2 (List.not_mem_nil e)
    | some l =>
        have hel : e ∈ l := by rw [emitCallbacks, hl] at h2; exact h2
        have hhook : (c, s) ∈ st.hooks :=
          hcov (s, l) (mem_of_mapLookup _ _ _ hl) e hel c (Option.mem_def.mpr hconn)
        apply hmem
        refine List.mem_map.mpr ⟨(c, s), ?_, rfl⟩
        exact List.mem_filter.mpr ⟨hhook, by simp⟩

/-- Witness for C2: connections 1 and 2 subscribe for subtype "tx"; after
connection 1 closes, the entry surviving in the emit list is that of
connection 2, whose connection differs from 1. -/
theorem closedConnectionNotEmitted_witness :
    SubEntry.conn ⟨some 2, 9⟩ ≠ some 1 :=
  closedConnectionNotEmitted
    (subscribe (subscribe emptyEmitter (some 1) 7 (some "tx")) (some 2) 9 (some "tx"))
    1 (some "tx") ⟨some 2, 9⟩ (by decide) (by decide)

/-- C10. `hasSubscribers` called with no subtype (events.ts lines 93-99)
checks the size of the whole subtype map, so it returns true whenever any
subtype at all, including a named one, holds at least one subscriber; it
does not test specifically for the undefined subtype. -/
theorem hasSubscribersAnySubtype (st : EmitterState) (s : Option String)
    (l : List SubEntry) (hl : mapLookup st.subs s = some l) (_hne : l ≠ []) :
    hasSubscribers st none = true := by
  have hmem : (s, l) ∈ st.subs := mem_of_mapLookup _ _ _ hl
  have h2 : st.subs ≠ [] := by
    intro h3
    rw [h3] at hmem
    exact absurd hmem (List.not_mem_nil _)
  unfold hasSubscribers
  simpa [List.length_pos] using h2

/-- Witness for C10: a single subscription under the named subtype "txid"
makes `hasSubscribers()` (no argument) true, the behaviour the notification
listener in app.ts lines 298-322 relies on. -/
theorem hasSubscribersAnySubtype_witness :
    hasSubscribers (subscribe emptyEmitter (some 5) 3 (some "txid")) none = true :=
  hasSubscribersAnySubtype (subscribe emptyEmitter (some 5) 3 (some "txid"))
    (some "txid") [⟨some 5, 3⟩] (by decide) (by decide)

/-! ## HTTP protocol request gates and body parsing (src/protocol/http.ts) -/

/-- The URL-length gate of the HTTP request listener (http.ts lines 82-87):
`if (request.url!.length > this.maxPayloadSize)` answer status 414. Note the
absence of a special case for `maxPayloadSize === 0`. -/
def httpUrlLengthGate (maxPayloadSize : Nat) (urlLength : Nat) : Option Nat :=
  if urlLength > maxPayloadSize then some 414 else none

/-- The POST body-size gate of the data handler (http.ts lines 150-155):
`if (this.maxPayloadSize !== 0 && body.length > this.maxPayloadSize)` answer
status 413, treating 0 as unlimited. -/
def httpPostBodyGate (maxPayloadSize : Nat) (bodyLength : Nat) : Option Nat :=
  if maxPayloadSize ≠ 0 ∧ bodyLength > maxPayloadSize then some 413 else none

/-- C3. The config comment for VSERVER_MAXPAYLOADSIZE (config.ts line 39) and
the POST gate treat 0 as unlimited, but the URL-length gate does not: with a
positive limit the boundary behaviour matches the claim (length 12 accepted,
13 rejected with 414, for limit 12), while with limit 0 the URL gate rejects
the 12-character URL "/api/v1/time" with 414 even though the POST gate lets a
body of any size through. -/
theorem urlLengthGateBoundaries :
    httpUrlLengthGate 12 (String.length "/api/v1/time") = none ∧
    httpUrlLengthGate 12 (String.length "/api/v1/time/") = some 414 ∧
    httpUrlLengthGate 0 (String.length "/api/v1/time") = some 414 ∧
    httpPostBodyGate 0 1000000000 = none := by
  decide

/-- Result of parsing a request body or query string: the branch taken and the
string it was taken on. `json v` is a successful `JSON.parse`; `form s` is
`querystring.parse(s)`; `str s` is the bare string. -/
inductive ParsedData (α : Type) where
  | json (v : α)
  | form (s : String)
  | str (s : String)
  deriving DecidableEq, Repr

/-- The GET query parsing chain (http.ts lines 126-137): try `JSON.parse`; if
it throws and the string contains a "=" (`indexOf("=") !== -1`), use
`querystring.parse`; otherwise keep the bare string. `jsonParse` abstracts
`JSON.parse`, with `some` for success and `none` for a thrown parse error. -/
def parseDataChain {α : Type} (jsonParse : String → Option α) (s : String) : ParsedData α :=
  match jsonParse s with
  | some v => ParsedData.json v
  | none => if s.data.contains '=' then ParsedData.form s else ParsedData.str s

/-- Outcome of the POST end handler: either dispatch to the request handler
with the parsed data (none when the body was empty), or answer an error. -/
inductive PostOutcome (α : Type) where
  | dispatch (d : Option (ParsedData α))
  | reject (status : Nat) (msg : String)
  deriving DecidableEq, Repr

/-- The POST end handler of the TypeScript source (http.ts lines 159-174): a
non-empty body is parsed with `JSON.parse` only, and a parse failure is
answered with 400 "Invalid request json.". -/
def postEndHandlerTs {α : Type} (jsonParse : String → Option α) (body : String) :
    PostOutcome α :=
  if body.length > 0 then
    match jsonParse body with
    | some v => PostOutcome.dispatch (some (ParsedData.json v))
    | none => PostOutcome.reject 400 "Invalid request json."
  else PostOutcome.dispatch none

/-- The POST end handler of the compiled variant shipped in the repository
(part_002 lines 149-166): a non-empty body goes through the same chain as a
GET query string (JSON, then form when it contains "=", then bare string). -/
def postEndHandlerCompiled {α : Type} (jsonParse : String → Option α) (body : String) :
    PostOutcome α :=
  if body.length > 0 then PostOutcome.dispatch (some (parseDataChain jsonParse body))
  else PostOutcome.dispatch none

/-- C4, evaluation at the failing input. For the body "hello" (non-empty, not
JSON, containing no "="), the TypeScript source answers 400 "Invalid request
json." where the claim, the spec, and the compiled variant of the same file in
this repository dispatch the bare string to the handler, exactly as the GET
chain does. -/
theorem postBodyFallbackDivergence {α : Type} (jsonParse : String → Option α)
    (h : jsonParse "hello" = none) :
    postEndHandlerTs jsonParse "hello" = PostOutcome.reject 400 "Invalid request json." ∧
    postEndHandlerCompiled jsonParse "hello" =
      PostOutcome.dispatch (some (ParsedData.str "hello")) ∧
    parseDataChain jsonParse "hello" = ParsedData.str "hello" := by
  have hne : ¬ ("hello".data.contains '=' = true) := by decide
  have hlen : "hello".length > 0 := by decide
  refine ⟨?_, ?_, ?_⟩ <;>
    simp [postEndHandlerTs, postEndHandlerCompiled, parseDataChain, h, hne, hlen]

/-- Witness for C4: the divergence instantiated with a parser that fails on
"hello", as `JSON.parse` does. -/
theorem postBodyFallbackDivergence_witness :
    postEndHandlerTs (fun _ => (none : Option Unit)) "hello" =
      PostOutcome.reject 400 "Invalid request json." :=
  (postBodyFallbackDivergence (fun _ => (none : Option Unit)) rfl).1

/-! ## Config defaults (src/config.ts) -/

/-- A value of the configuration: the types handled by the Config registry
that matter for the default keys (the object type has no defaulted key). -/
inductive ConfigVal where
  | str (s : String)
  | num (n : Int)
  | bool (b : Bool)
  deriving DecidableEq, Repr

/-- A key registered through addStringConfig, addNumberConfig or
addBoolConfig: its name and its default value (none when registered with an
undefined default). Validators are omitted; `loadDefaults` never consults
them. -/
structure ConfigKey where
  name : String
  defaultValue : Option ConfigVal
  deriving DecidableEq, Repr

/-- The standard keys registered at the bottom of config.ts (lines 295-409),
in registration order, with their declared default values. -/
def registeredKeys : List ConfigKey :=
  [⟨"VSERVER_LOGLEVEL", some (ConfigVal.num 0)⟩,
   ⟨"VSERVER_DBMINCONNECTIONS", some (ConfigVal.num 0)⟩,
   ⟨"VSERVER_DBMAXCONNECTIONS", some (ConfigVal.num 10)⟩,
   ⟨"VSERVER_DBPORT", some (ConfigVal.num 5432)⟩,
   ⟨"VSERVER_RESTPORT", none⟩,
   ⟨"VSERVER_HTTPPORT", none⟩,
   ⟨"VSERVER_WSPORT", some (ConfigVal.num 8080)⟩,
   ⟨"VSERVER_MAXPAYLOADSIZE", some (ConfigVal.num 1000000)⟩,
   ⟨"VSERVER_TIMEOUT", some (ConfigVal.num 60)⟩,
   ⟨"VSERVER_MAXMEMORY", some (ConfigVal.num 0)⟩,
   ⟨"VSERVER_METRICSINTERVAL", some (ConfigVal.num 0)⟩,
   ⟨"VSERVER_WORKERS", some (ConfigVal.num (-1))⟩,
   ⟨"VSERVER_DBUSER", some (ConfigVal.str "backend")⟩,
   ⟨"VSERVER_DBNAME", some (ConfigVal.str "blockchain")⟩,
   ⟨"VSERVER_DBHOST", some (ConfigVal.str "localhost")⟩,
   ⟨"VSERVER_DBPASSWORD", none⟩,
   ⟨"VSERVER_SENTRYURL", none⟩,
   ⟨"VSERVER_KEYPATH", none⟩,
   ⟨"VSERVER_CERTPATH", none⟩,
   ⟨"VSERVER_LOGFORMAT", none⟩,
   ⟨"VSERVER_METRICSTOKEN", none⟩,
   ⟨"VSERVER_API", none⟩,
   ⟨"VSERVER_METRICSDEFAULT", some (ConfigVal.bool true)⟩,
   ⟨"VSERVER_CACHING", some (ConfigVal.bool true)⟩,
   ⟨"VSERVER_TLS", some (ConfigVal.bool true)⟩]

/-- Lookup in the loaded configuration object. -/
def configLookup (cfg : List (String × ConfigVal)) (k : String) : Option ConfigVal :=
  match cfg with
  | [] => none
  | (k1, v) :: rest => if k1 = k then some v else configLookup rest k

/-- `Config.loadDefaults` (config.ts lines 255-261): for every registered key
in registration order, when the configuration loaded from environment and
file holds no value and the registration declares a default, store the
default. -/
def loadDefaults (cfg : List (String × ConfigVal)) : List (String × ConfigVal) :=
  registeredKeys.foldl
    (fun c k =>
      match configLookup c k.name, k.defaultValue with
      | none, some v => c ++ [(k.name, v)]
      | _, _ => c)
    cfg

/-- C8, evaluation at the failing input. With neither environment variables
nor a config file supplying any key (the loaded configuration is empty before
defaults), `loadDefaults` yields VSERVER_TLS = true, not false:
`Config.addBoolConfig("VSERVER_TLS", true, ...)` at config.ts line 395
registers true as the default, contradicting the claim that TLS is disabled
by default. -/
theorem vserverTlsDefaultsTrue :
    configLookup (loadDefaults []) "VSERVER_TLS" = some (ConfigVal.bool true) ∧
    ¬ configLookup (loadDefaults []) "VSERVER_TLS" = some (ConfigVal.bool false) := by
  decide

/-! ## Server cache (serverCache source file) -/

/-- A cache entry as stored in `cachedData`: value (none before the first
successful update, as `value: undefined`), the refresh duration in
milliseconds, and the timestamp of the last successful update. -/
structure CacheEntry where
  value : Option Int
  lastUpdate : Nat
  duration : Nat
  deriving DecidableEq, Repr

/-- The staleness check of `ServerCache.get` (serverCache line 141):
`Date.now() > cachedData.lastUpdate + cachedData.duration ||
!Config.get().VSERVER_CACHING`. -/
def cacheNeedsRefresh (e : CacheEntry) (now : Nat) (caching : Bool) : Bool :=
  (now > e.lastUpdate + e.duration) || !caching

/-- `ServerCache.get` on a registered key (serverCache lines 137-151), once
the outcome of the awaited update is known: `refresh = some v` models a
resolved update promise, `none` a rejected one. The staleness check runs at
`now`; the value and timestamp writes run at `nowAfter`, the time at which
the awaited update resolved. On rejection nothing is assigned and the single
generic error is thrown (lines 145-148). -/
def cacheGet (e : CacheEntry) (now nowAfter : Nat) (caching : Bool)
    (refresh : Option Int) : Except String (Option Int) × CacheEntry :=
  if cacheNeedsRefresh e now caching then
    match refresh with
    | some v => (Except.ok (some v), { e with value := some v, lastUpdate := nowAfter })
    | none => (Except.error "Failed to update cache.", e)
  else (Except.ok e.value, e)

/-- C6. When the entry is stale or caching is globally disabled and the
update function rejects, `get` rejects with exactly the generic error
"Failed to update cache." and leaves the entry untouched: the stored value
and the last-update timestamp keep their prior contents for later calls
(serverCache lines 141-150: the assignments to `cachedData.value` and
`cachedData.lastUpdate` are only reached when the awaited update resolves). -/
theorem cacheGetFailureKeepsEntry (e : CacheEntry) (now nowAfter : Nat) (caching : Bool)
    (hstale : cacheNeedsRefresh e now caching = true) :
    cacheGet e now nowAfter caching none = (Except.error "Failed to update cache.", e) := by
  simp [cacheGet, hstale]

/-- Witness for C6: a stale entry holding value 42 keeps holding 42 with its
old timestamp after a failed refresh, and the call rejects generically. -/
theorem cacheGetFailureKeepsEntry_witness :
    cacheGet ⟨some 42, 0, 300000⟩ 1000000 1000001 true none =
      (Except.error "Failed to update cache.", ⟨some 42, 0, 300000⟩) :=
  cacheGetFailureKeepsEntry ⟨some 42, 0, 300000⟩ 1000000 1000001 true (by decide)

/-- State of the concurrent executions of `ServerCache.get` on one key: the
entry, the caching flag, the number of update invocations currently awaited,
and the total number of update invocations so far. -/
structure CacheSys where
  entry : CacheEntry
  caching : Bool
  inFlight : Nat
  updateCalls : Nat
  deriving DecidableEq, Repr

/-- An interleaving event of concurrent `get` calls. `start t` runs the
synchronous prefix of `get` at time `t`: the staleness check of line 141,
which, when it passes, invokes the update function at once (the await
suspends with the promise in flight). `finish t v` resumes one awaited
update at time `t` with resolved value `v`, performing the writes of lines
143-144. -/
inductive GetEvent where
  | start (t : Nat)
  | finish (t : Nat) (v : Int)
  deriving DecidableEq, Repr

/-- One interleaving step of the concurrent `get` executions. -/
def cacheStep (s : CacheSys) (ev : GetEvent) : CacheSys :=
  match ev with
  | GetEvent.start t =>
      if cacheNeedsRefresh s.entry t s.caching then
        { s with inFlight := s.inFlight + 1, updateCalls := s.updateCalls + 1 }
      else s
  | GetEvent.finish t v =>
      if s.inFlight > 0 then
        { s with entry := { s.entry with value := some v, lastUpdate := t },
                 inFlight := s.inFlight - 1 }
      else s

/-- Run an interleaving of concurrent `get` executions. -/
def runCacheTrace (s : CacheSys) (evs : List GetEvent) : CacheSys :=
  evs.foldl cacheStep s

/-- C5, counterexample. Entry registered with duration 300000 ms, never yet
updated, caching enabled. A `get` at t = 1000000 starts a refresh, leaving it
in flight; a second `get` at t = 1000001 arrives while that refresh is in
flight, observes the unchanged `lastUpdate` (the write of line 144 only
happens when the awaited promise resolves) and invokes the update function a
second time: two invocations, not at most one. -/
theorem cacheSingleFlight_cex :
    (runCacheTrace ⟨⟨none, 0, 300000⟩, true, 0, 0⟩ [GetEvent.start 1000000]).inFlight = 1 ∧
    ¬ ((runCacheTrace ⟨⟨none, 0, 300000⟩, true, 0, 0⟩
        [GetEvent.start 1000000, GetEvent.start 1000001]).updateCalls ≤ 1) := by
  decide

/-- C5, amended. `ServerCache.get` has no single-flight coalescing: every
`get` whose staleness check passes invokes the update function itself, so two
concurrent `get` calls that both arrive while the entry is stale (the second
while the refresh started by the first is still in flight) trigger two
invocations of the update function. Only a `get` arriving after a completed
refresh, within the entry duration and with caching enabled, triggers no
further invocation. -/
theorem cacheRefreshNotSingleFlight (e : CacheEntry) (t1 t2 t3 t4 : Nat) (v : Int)
    (h1 : t1 > e.lastUpdate + e.duration) (h2 : t2 > e.lastUpdate + e.duration)
    (h4 : ¬ t4 > t3 + e.duration) :
    (runCacheTrace ⟨e, true, 0, 0⟩ [GetEvent.start t1, GetEvent.start t2]).updateCalls = 2 ∧
    (runCacheTrace ⟨e, true, 0, 0⟩
      [GetEvent.start t1, GetEvent.finish t3 v, GetEvent.start t4]).updateCalls = 1 := by
  constructor
  · simp [runCacheTrace, cacheStep, cacheNeedsRefresh, h1, h2]
  · simp [runCacheTrace, cacheStep, cacheNeedsRefresh, h1, h4]

/-- Witness for the amended C5: concrete times, both behaviours observed. -/
theorem cacheRefreshNotSingleFlight_witness :
    (runCacheTrace ⟨⟨none, 0, 300000⟩, true, 0, 0⟩
      [GetEvent.start 1000000, GetEvent.start 1000001]).updateCalls = 2 ∧
    (runCacheTrace ⟨⟨none, 0, 300000⟩, true, 0, 0⟩
      [GetEvent.start 1000000, GetEvent.finish 1000500 7,
       GetEvent.start 1000600]).updateCalls = 1 :=
  cacheRefreshNotSingleFlight ⟨none, 0, 300000⟩ 1000000 1000001 1000500 1000600 7
    (by decide) (by decide) (by decide)

/-! ## Metrics (src/core/metrics.ts) -/

/-- Save-and-reset of the total counters at the start of `Metrics.sync`
(metrics.ts lines 351-360): every total with a nonzero value (or every total
before the first sync) is appended to the write set and its local counter is
set to 0 immediately, before the database transaction is issued. Returns
(write set, local counters after the save). -/
def syncSaveReset : List (String × Int) → Bool → List (String × Int) × List (String × Int)
  | [], _ => ([], [])
  | (k, v) :: rest, so =>
      if v ≠ 0 ∨ so = false then
        ((k, v) :: (syncSaveReset rest so).1, (k, 0) :: (syncSaveReset rest so).2)
      else ((syncSaveReset rest so).1, (k, v) :: (syncSaveReset rest so).2)

/-- Outcome of `Metrics.sync` (metrics.ts lines 348-404) for the total
counters: the write set is applied to the database iff the begin/commit
transaction commits (a failure rolls the whole transaction back, lines
397-400); the local counters hold the values saved-and-reset before the
transaction either way. -/
structure SyncOutcome where
  dbTotalsDelta : List (String × Int)
  localTotals : List (String × Int)
  deriving DecidableEq, Repr

/-- `Metrics.sync` for the totals, parameterised by whether the transaction
commits. -/
def metricsSync (totals : List (String × Int)) (syncedOnce : Bool) (txnCommits : Bool) :
    SyncOutcome :=
  { dbTotalsDelta := if txnCommits then (syncSaveReset totals syncedOnce).1 else [],
    localTotals := (syncSaveReset totals syncedOnce).2 }

theorem syncSaveReset_zeroed (totals : List (String × Int)) (so : Bool) :
    ∀ kv ∈ (syncSaveReset totals so).1, (kv.1, (0 : Int)) ∈ (syncSaveReset totals so).2 := by
  induction totals with
  | nil => intro kv h; simp [syncSaveReset] at h
  | cons p rest ih =>
      obtain ⟨k, v⟩ := p
      intro kv h
      by_cases hc : v ≠ 0 ∨ so = false
      · simp only [syncSaveReset, if_pos hc, List.mem_cons] at h ⊢
        rcases h with h | h
        · left; rw [h]
        · right; exact ih kv h
      · simp only [syncSaveReset, if_neg hc, List.mem_cons] at h ⊢
        right; exact ih kv h

/-- C7, counterexample. A worker whose `requestsSuccessRest` total is 5 after
at least one earlier sync runs `Metrics.sync` and the transaction fails: the
rollback leaves no database delta, yet the local counter is 0 rather than the
accumulated 5, because `sync` saves and resets the totals before issuing the
transaction (metrics.ts lines 351-360, "We save+reset them now as they may
change before we are finished writing"). -/
theorem metricsSyncResetBeforeTxn_cex :
    (metricsSync [("requestsSuccessRest", 5)] true false).dbTotalsDelta = [] ∧
    ¬ (metricsSync [("requestsSuccessRest", 5)] true false).localTotals =
        [("requestsSuccessRest", 5)] := by
  decide

/-- C7, amended. `Metrics.sync` persists all saved total counters in a single
atomic begin/commit transaction (all writes applied on commit, none on
rollback) and retains the current gauges, but each saved total counter is
reset to zero locally before the transaction is issued, not after
persistence: the local counters after `sync` are the same whether the
transaction commits or fails, and every saved counter reads 0 locally, so a
rolled-back transaction loses the accumulated counts from the worker. -/
theorem metricsSyncResetsBeforePersist (totals : List (String × Int)) (so txn : Bool) :
    (metricsSync totals so txn).localTotals = (metricsSync totals so false).localTotals ∧
    (metricsSync totals so txn).dbTotalsDelta =
      (if txn then (syncSaveReset totals so).1 else []) ∧
    ∀ kv ∈ (syncSaveReset totals so).1,
      (kv.1, (0 : Int)) ∈ (metricsSync totals so txn).localTotals :=
  ⟨rfl, rfl, syncSaveReset_zeroed totals so⟩

/-- Witness for the amended C7: the saved counter reads zero locally after a
failed transaction. -/
theorem metricsSyncResetsBeforePersist_witness :
    ("requestsSuccessRest", (0 : Int)) ∈
      (metricsSync [("requestsSuccessRest", 5)] true false).localTotals :=
  (metricsSyncResetsBeforePersist [("requestsSuccessRest", 5)] true false).2.2
    ("requestsSuccessRest", 5) (by decide)

/-- The total metrics consumed by `Metrics.exportPrometheus` (metrics.ts
lines 223-296). The values are the aggregated database rows; they are
integers and, for any data the program itself recorded, non-negative. -/
structure PromTotals where
  latency8 : Int
  latency16 : Int
  latency32 : Int
  latency64 : Int
  latency128 : Int
  latency256 : Int
  latency512 : Int
  latency1024 : Int
  latency2048 : Int
  latency4096 : Int
  latencyInf : Int
  latencyTotal : Int
  websocket10 : Int
  websocket30 : Int
  websocket60 : Int
  websocket120 : Int
  websocket300 : Int
  websocket900 : Int
  websocketInf : Int
  websocketTotal : Int
  deriving DecidableEq, Repr

/-- Cumulative latency buckets of `exportPrometheus` (metrics.ts 225-235). -/
def latencyBucket8 (i : PromTotals) : Int := i.latency8

def latencyBucket16 (i : PromTotals) : Int := i.latency16 + latencyBucket8 i

def latencyBucket32 (i : PromTotals) : Int := i.latency32 + latencyBucket16 i

def latencyBucket64 (i : PromTotals) : Int := i.latency64 + latencyBucket32 i

def latencyBucket128 (i : PromTotals) : Int := i.latency128 + latencyBucket64 i

def latencyBucket256 (i : PromTotals) : Int := i.latency256 + latencyBucket128 i

def latencyBucket512 (i : PromTotals) : Int := i.latency512 + latencyBucket256 i

def latencyBucket1024 (i : PromTotals) : Int := i.latency1024 + latencyBucket512 i

def latencyBucket2048 (i : PromTotals) : Int := i.latency2048 + latencyBucket1024 i

def latencyBucket4096 (i : PromTotals) : Int := i.latency4096 + latencyBucket2048 i

def latencyBucketInf (i : PromTotals) : Int := i.latencyInf + latencyBucket4096 i

/-- Cumulative websocket-duration buckets (metrics.ts 236-242). -/
def websocketBucket10 (i : PromTotals) : Int := i.websocket10

def websocketBucket30 (i : PromTotals) : Int := i.websocket30 + websocketBucket10 i

def websocketBucket60 (i : PromTotals) : Int := i.websocket60 + websocketBucket30 i

def websocketBucket120 (i : PromTotals) : Int := i.websocket120 + websocketBucket60 i

def websocketBucket300 (i : PromTotals) : Int := i.websocket300 + websocketBucket120 i

def websocketBucket900 (i : PromTotals) : Int := i.websocket900 + websocketBucket300 i

def websocketBucketInf (i : PromTotals) : Int := i.websocketInf + websocketBucket900 i

/-- The cumulative values emitted on the validana_latency_bucket lines, in
the order of the le labels 0.008 .. +Inf (metrics.ts 272-282). -/
def latencyBucketValues (i : PromTotals) : List Int :=
  [latencyBucket8 i, latencyBucket16 i, latencyBucket32 i, latencyBucket64 i,
   latencyBucket128 i, latencyBucket256 i, latencyBucket512 i, latencyBucket1024 i,
   latencyBucket2048 i, latencyBucket4096 i, latencyBucketInf i]

/-- The value emitted on the validana_latency_count line (metrics.ts 284). -/
def latencyCountValue (i : PromTotals) : Int := latencyBucketInf i

/-- The cumulative values emitted on the validana_websocket_duration_bucket
lines, le labels 10 .. +Inf (metrics.ts 287-293). -/
def websocketBucketValues (i : PromTotals) : List Int :=
  [websocketBucket10 i, websocketBucket30 i, websocketBucket60 i,
   websocketBucket120 i, websocketBucket300 i, websocketBucket900 i,
   websocketBucketInf i]

/-- The value emitted on the validana_websocket_duration_count line
(metrics.ts 295). -/
def websocketCountValue (i : PromTotals) : Int := websocketBucketInf i

/-- C9. For non-negative per-bucket counts, the cumulative latency and
websocket-duration bucket values emitted by `exportPrometheus` are
monotonically non-decreasing along the bucket bounds (every earlier bucket
value is at most every later one), and the emitted _count value of each
histogram equals its +Inf cumulative bucket value, the last bucket line. -/
theorem promHistogramMonotoneAndCount (i : PromTotals)
    (h : 0 ≤ i.latency16 ∧ 0 ≤ i.latency32 ∧ 0 ≤ i.latency64 ∧ 0 ≤ i.latency128 ∧
      0 ≤ i.latency256 ∧ 0 ≤ i.latency512 ∧ 0 ≤ i.latency1024 ∧ 0 ≤ i.latency2048 ∧
      0 ≤ i.latency4096 ∧ 0 ≤ i.latencyInf ∧ 0 ≤ i.websocket30 ∧ 0 ≤ i.websocket60 ∧
      0 ≤ i.websocket120 ∧ 0 ≤ i.websocket300 ∧ 0 ≤ i.websocket900 ∧
      0 ≤ i.websocketInf) :
    List.Pairwise (· ≤ ·) (latencyBucketValues i) ∧
    List.Pairwise (· ≤ ·) (websocketBucketValues i) ∧
    (latencyBucketValues i).getLast? = some (latencyCountValue i) ∧
    (websocketBucketValues i).getLast? = some (websocketCountValue i) := by
  obtain ⟨h16, h32, h64, h128, h256, h512, h1024, h2048, h4096, hInf,
    w30, w60, w120, w300, w900, wInf⟩ := h
  refine ⟨?_, ?_, rfl, rfl⟩
  · rw [← List.chain'_iff_pairwise]
    simp only [latencyBucketValues, List.chain'_cons, List.chain'_singleton, and_true,
      latencyBucket16, latencyBucket32, latencyBucket64, latencyBucket128,
      latencyBucket256, latencyBucket512, latencyBucket1024, latencyBucket2048,
      latencyBucket4096, latencyBucketInf]
    omega
  · rw [← List.chain'_iff_pairwise]
    simp only [websocketBucketValues, List.chain'_cons, List.chain'_singleton, and_true,
      websocketBucket30, websocketBucket60, websocketBucket120, websocketBucket300,
      websocketBucket900, websocketBucketInf]
    omega

/-- Witness for C9 at concrete non-negative counts. -/
theorem promHistogramMonotoneAndCount_witness :
    List.Pairwise (· ≤ ·)
      (latencyBucketValues ⟨1, 2, 0, 3, 0, 1, 0, 0, 2, 0, 5, 99, 1, 0, 2, 0, 0, 1, 4, 77⟩) :=
  (promHistogramMonotoneAndCount ⟨1, 2, 0, 3, 0, 1, 0, 0, 2, 0, 5, 99, 1, 0, 2, 0, 0, 1, 4, 77⟩
    (by decide)).1
